import Mathlib

/-!
Shallow embedding of `assets.go` (package `assets`), an asset-bundling
utility: it concatenates source files, names the output by the MD5 of its
content, deletes stale outputs for the same logical name, and renders
HTML tags or inline blocks referencing the compiled file.

Modelling conventions:
* File contents are byte lists (`List Nat`, each entry below 256 where it
  matters); ASCII text is converted with `strBytes` / `bytesToStr`.
* The source filesystem and the output directory are association lists
  from file name to content.  `ioutil.ReadFile` of a missing path yields
  the Go `*PathError` message; other environmental failures
  (`os.Remove`, `ioutil.WriteFile` errors) are not modelled: removal and
  writing succeed.
* `filepath.Join` is modelled for already-clean relative components (plus
  the root `"/"` as first argument), the only shapes the package builds.
* `filepath.Glob` over the pattern `dir/__name-*ext` is modelled per file
  of the directory by `globMatch`: the name must be the literal prefix,
  then any run of non-separator characters, then the literal extension;
  `name` and `ext` are assumed free of glob metacharacters, as in the
  package's fixed extensions.  `Glob` sorts its results, which is
  irrelevant here: `removeGlob` consumes the whole list and `findFile`
  only ever returns a singleton's element.
* `fmt.Sprintf` is modelled for format strings containing a single `%s`
  verb (`sprintf1`).
-/

namespace Assets

/-- One byte, modelled as a `Nat` (values are kept below 256 where it matters). -/
abbrev Byte := Nat

/-- Contents of the output directory: file name to content. -/
abbrev Dir := List (String × List Byte)

/-- The source filesystem: path to content; a missing path is unreadable. -/
abbrev FS := List (String × List Byte)

/-- MD5 per-round left-rotation amounts. -/
def md5S : List Nat :=
  [7, 12, 17, 22, 7, 12, 17, 22, 7, 12, 17, 22, 7, 12, 17, 22,
   5,  9, 14, 20, 5,  9, 14, 20, 5,  9, 14, 20, 5,  9, 14, 20,
   4, 11, 16, 23, 4, 11, 16, 23, 4, 11, 16, 23, 4, 11, 16, 23,
   6, 10, 15, 21, 6, 10, 15, 21, 6, 10, 15, 21, 6, 10, 15, 21]

/-- MD5 round constants: entry `i` is the integer part of `2^32 * |sin (i+1)|`. -/
def md5K : List Nat :=
  [0xd76aa478, 0xe8c7b756, 0x242070db, 0xc1bdceee,
   0xf57c0faf, 0x4787c62a, 0xa8304613, 0xfd469501,
   0x698098d8, 0x8b44f7af, 0xffff5bb1, 0x895cd7be,
   0x6b901122, 0xfd987193, 0xa679438e, 0x49b40821,
   0xf61e2562, 0xc040b340, 0x265e5a51, 0xe9b6c7aa,
   0xd62f105d, 0x02441453, 0xd8a1e681, 0xe7d3fbc8,
   0x21e1cde6, 0xc33707d6, 0xf4d50d87, 0x455a14ed,
   0xa9e3e905, 0xfcefa3f8, 0x676f02d9, 0x8d2a4c8a,
   0xfffa3942, 0x8771f681, 0x6d9d6122, 0xfde5380c,
   0xa4beea44, 0x4bdecfa9, 0xf6bb4b60, 0xbebfbc70,
   0x289b7ec6, 0xeaa127fa, 0xd4ef3085, 0x04881d05,
   0xd9d4d039, 0xe6db99e5, 0x1fa27cf8, 0xc4ac5665,
   0xf4292244, 0x432aff97, 0xab9423a7, 0xfc93a039,
   0x655b59c3, 0x8f0ccc92, 0xffeff47d, 0x85845dd1,
   0x6fa87e4f, 0xfe2ce6e0, 0xa3014314, 0x4e0811a1,
   0xf7537e82, 0xbd3af235, 0x2ad7d2bb, 0xeb86d391]

/-- Left-rotate a 32-bit word (a `Nat` below `2^32`) by `n` bits. -/
def rotl32 (x n : Nat) : Nat :=
  ((x <<< n) ||| (x >>> (32 - n))) % 4294967296

/-- Little-endian byte decomposition: `k` bytes of `x`. -/
def leBytes : Nat → Nat → List Byte
  | _, 0 => []
  | x, k + 1 => x % 256 :: leBytes (x / 256) k

/-- Group a byte list into little-endian 32-bit words. -/
def leWords : List Byte → List Nat
  | b0 :: b1 :: b2 :: b3 :: rest =>
      (b0 + b1 * 256 + b2 * 65536 + b3 * 16777216) :: leWords rest
  | _ => []

/-- One MD5 round: transform the state `(a, b, c, d)` at round index `i`
with message words `m`. -/
def md5Round (m : List Nat) (st : Nat × Nat × Nat × Nat) (i : Nat) :
    Nat × Nat × Nat × Nat :=
  let (a, b, c, d) := st
  let mask := 4294967295
  let (f, g) :=
    if i < 16 then ((b &&& c) ||| ((b ^^^ mask) &&& d), i)
    else if i < 32 then ((d &&& b) ||| ((d ^^^ mask) &&& c), (5 * i + 1) % 16)
    else if i < 48 then (b ^^^ c ^^^ d, (3 * i + 5) % 16)
    else (c ^^^ (b ||| (d ^^^ mask)), (7 * i) % 16)
  let t := (f + a + md5K.getD i 0 + m.getD g 0) % 4294967296
  (d, (b + rotl32 t (md5S.getD i 0)) % 4294967296, b, c)

/-- Process one 64-byte block into the running MD5 state. -/
def md5Block (st : Nat × Nat × Nat × Nat) (block : List Byte) :
    Nat × Nat × Nat × Nat :=
  let m := leWords block
  let (a, b, c, d) := (List.range 64).foldl (md5Round m) st
  let (a0, b0, c0, d0) := st
  ((a0 + a) % 4294967296, (b0 + b) % 4294967296,
   (c0 + c) % 4294967296, (d0 + d) % 4294967296)

/-- Split a list into chunks of 64 elements; `fuel` bounds the recursion
and is chosen large enough by the caller. -/
def chunksAux : Nat → List Byte → List (List Byte)
  | 0, _ => []
  | _, [] => []
  | fuel + 1, l => l.take 64 :: chunksAux fuel (l.drop 64)

/-- Split a list into chunks of 64 elements. -/
def chunks64 (l : List Byte) : List (List Byte) :=
  chunksAux l.length l

/-- MD5 padding: append `0x80`, zeros to reach 56 mod 64, then the 8-byte
little-endian bit length. -/
def md5Pad (msg : List Byte) : List Byte :=
  let padZeros := (120 - (msg.length + 1) % 64) % 64
  msg ++ [128] ++ List.replicate padZeros 0 ++ leBytes ((msg.length * 8) % 2 ^ 64) 8

/-- The 16-byte MD5 digest of a byte sequence (Go `md5.Sum`). -/
def md5Sum (msg : List Byte) : List Byte :=
  let (a, b, c, d) :=
    (chunks64 (md5Pad msg)).foldl md5Block
      (0x67452301, 0xefcdab89, 0x98badcfe, 0x10325476)
  leBytes a 4 ++ leBytes b 4 ++ leBytes c 4 ++ leBytes d 4

/-- Lowercase hex digit for `n < 16`. -/
def hexDigit (n : Nat) : Char :=
  if n < 10 then Char.ofNat (48 + n) else Char.ofNat (87 + n)

/-- The two lowercase hex digits of one byte (digests feed it bytes
below 256, so the extra `% 16` on the high digit is the identity there). -/
def hexByte (b : Byte) : List Char :=
  [hexDigit (b / 16 % 16), hexDigit (b % 16)]

/-- Lowercase hex encoding of a byte sequence (Go `hex.EncodeToString`). -/
def hexEncode (bytes : List Byte) : String :=
  String.mk (bytes.foldr (fun b acc => hexByte b ++ acc) [])

/-- Go `hash`: the lowercase-hex MD5 of a byte sequence. -/
def hash (bytes : List Byte) : String :=
  hexEncode (md5Sum bytes)

/-- The bytes of an ASCII string (each char's code point). -/
def strBytes (s : String) : List Byte :=
  s.data.map Char.toNat

/-- The ASCII string of a byte list (Go `string(bytes[:])`, restricted to
ASCII content as produced by the modelled sources). -/
def bytesToStr (l : List Byte) : String :=
  String.mk (l.map Char.ofNat)

/-- Go `filepath.Join` for already-clean relative components, plus the
root `"/"` as first argument; empty components are skipped as in Go. -/
def joinPath (a b : String) : String :=
  if a = "" then b
  else if b = "" then a
  else if a = "/" then "/" ++ b
  else a ++ "/" ++ b

/-- Go `fmt.Sprintf` restricted to format strings with a single `%s`
verb: substitute `arg` for the first `%s`. -/
def sprintfAux : List Char → List Char → List Char
  | [], _ => []
  | '%' :: 's' :: rest, arg => arg ++ rest
  | c :: rest, arg => c :: sprintfAux rest arg

/-- Format `arg` into `tmplt` at its single `%s` verb. -/
def sprintf1 (tmplt arg : String) : String :=
  String.mk (sprintfAux tmplt.data arg.data)

/-- Go constant `cssTagTemplate`. -/
def cssTagTemplate : String :=
  "<link href=\"%s\" rel=\"stylesheet\" type=\"text/css\" />"

/-- Go constant `jsTagTemplate`. -/
def jsTagTemplate : String :=
  "<script src=\"%s\" type=\"text/javascript\" ></script>"

/-- Go constant `cssInlineTemplate`. -/
def cssInlineTemplate : String :=
  "<style>%s</style>"

/-- Go constant `jsInlineTemplate`. -/
def jsInlineTemplate : String :=
  "<script>%s</script>"

/-- Go `strings.HasSuffix`, over the characters (the package only tests
ASCII suffixes `"css"` and `"js"`). -/
def hasSuffix (s suf : String) : Bool :=
  suf.data.isSuffixOf s.data

/-- Go `filePrefix` (renamed): `fmt.Sprintf("__%s-", compiledName)`. -/
def filePre (compiledName : String) : String :=
  "__" ++ compiledName ++ "-"

/-- Strip an exact leading prefix, or fail. -/
def stripPre : List Char → List Char → Option (List Char)
  | [], l => some l
  | _ :: _, [] => none
  | p :: ps, c :: cs => if p = c then stripPre ps cs else none

/-- Strip an exact trailing suffix, or fail. -/
def stripSuf (suf l : List Char) : Option (List Char) :=
  (stripPre suf.reverse l.reverse).map List.reverse

/-- Whether file name `fname` matches the glob `__<compiledName>-*<ext>`
(Go `filepath.Match` with `*` matching any run of non-separator
characters; `compiledName` and `ext` contain no glob metacharacters). -/
def globMatch (compiledName ext fname : String) : Bool :=
  match stripPre (filePre compiledName).data fname.data with
  | none => false
  | some rest =>
    match stripSuf ext.data rest with
    | none => false
    | some mid => mid.all (fun c => c != '/')

/-- The entries of `dir` whose names match the glob for
`(compiledName, ext)` — what `filepath.Glob` lists for the pattern. -/
def findMatches (dir : Dir) (compiledName ext : String) : Dir :=
  dir.filter (fun e => globMatch compiledName ext e.1)

/-- Go's `ReadFile` error message for a missing path. -/
def readErrMsg (path : String) : String :=
  "open " ++ path ++ ": no such file or directory"

/-- Go `findFile`'s zero-match error message. -/
def noFilesMsg (path compiledName : String) : String :=
  "No files found at " ++ path ++ " with name " ++ compiledName

/-- Go `findFile`'s multiple-match error message. -/
def moreThanOneMsg (path compiledName : String) : String :=
  "More than one file found at " ++ path ++ " with name " ++ compiledName

/-- Go `findFile`: glob for `__<compiledName>-*<ext>` under `path`; error
on zero or several matches; on exactly one, return it, rooted at `/`
when `abs` is set. -/
def findFile (dir : Dir) (path compiledName ext : String) (abs : Bool) :
    Except String String :=
  let files := (findMatches dir compiledName ext).map (fun e => joinPath path e.1)
  if files.length > 1 then .error (moreThanOneMsg path compiledName)
  else
    match files with
    | [] => .error (noFilesMsg path compiledName)
    | f :: _ => if abs then .ok (joinPath "/" f) else .ok f

/-- Go `removeGlob`: delete every file of `dir` matching the glob for
`(compiledName, ext)` (each `os.Remove` modelled as succeeding). -/
def removeGlob (dir : Dir) (compiledName ext : String) : Dir :=
  dir.filter (fun e => !globMatch compiledName ext e.1)

/-- Go `ioutil.ReadFile` over the modelled source filesystem. -/
def readFile (fs : FS) (path : String) : Except String (List Byte) :=
  match fs.lookup path with
  | some c => .ok c
  | none => .error (readErrMsg path)

/-- Go `combine`: concatenate the sources in order, each followed by
`"\n\n"`, stopping at the first read error. -/
def combine (fs : FS) (paths : List String) : Except String (List Byte) :=
  match paths with
  | [] => .ok []
  | p :: rest =>
    match readFile fs p with
    | .error e => .error e
    | .ok b =>
      match combine fs rest with
      | .error e => .error e
      | .ok r => .ok (b ++ [10, 10] ++ r)

/-- The output file's base name: `__<compiledName>-<hash><ext>`. -/
def outName (compiledName : String) (buf : List Byte) (ext : String) : String :=
  filePre compiledName ++ hash buf ++ ext

/-- Go `outPath`: the output name joined under `outDir`. -/
def outPath (outDir compiledName : String) (buf : List Byte) (ext : String) : String :=
  joinPath outDir (outName compiledName buf ext)

/-- Go `ioutil.WriteFile`: create or truncate `name` with `content`. -/
def writeFile (dir : Dir) (name : String) (content : List Byte) : Dir :=
  if dir.any (fun e => e.1 == name) then
    dir.map (fun e => if e.1 == name then (name, content) else e)
  else
    dir ++ [(name, content)]

/-- Go `compile`: combine the sources; on success delete stale outputs
and write the new one.  Returns the output directory afterwards and the
error, if any. -/
def compile (fs : FS) (dir : Dir) (compiledName ext : String)
    (paths : List String) : Dir × Option String :=
  match combine fs paths with
  | .error e => (dir, some e)
  | .ok buf =>
    (writeFile (removeGlob dir compiledName ext) (outName compiledName buf ext) buf,
     none)

/-- Go `CSSCompile`. -/
def CSSCompile (fs : FS) (dir : Dir) (compiledName : String)
    (paths : List String) : Dir × Option String :=
  compile fs dir compiledName ".min.css" paths

/-- Go `JSCompile`. -/
def JSCompile (fs : FS) (dir : Dir) (compiledName : String)
    (paths : List String) : Dir × Option String :=
  compile fs dir compiledName ".min.js" paths

/-- Go `ImgCompile`: a single-source compile with caller-chosen extension. -/
def ImgCompile (fs : FS) (dir : Dir) (compiledName ext path : String) :
    Dir × Option String :=
  compile fs dir compiledName ext [path]

/-- Go `inline`: find the compiled file, read it, and wrap its content in
the style or script inline template; result is the HTML string and the
error, if any (reading a found file is modelled by taking the matching
entry's content). -/
def inline (dir : Dir) (path compiledName ext : String) : String × Option String :=
  let files := findMatches dir compiledName ext
  if files.length > 1 then ("", some (moreThanOneMsg path compiledName))
  else
    match files with
    | [] => ("", some (noFilesMsg path compiledName))
    | e :: _ =>
      if hasSuffix ext "css" then (sprintf1 cssInlineTemplate (bytesToStr e.2), none)
      else if hasSuffix ext "js" then (sprintf1 jsInlineTemplate (bytesToStr e.2), none)
      else ("", some ("No inline template for ext " ++ ext))

/-- Go `CSSInline`. -/
def CSSInline (dir : Dir) (path compiledName : String) : String × Option String :=
  inline dir path compiledName ".min.css"

/-- Go `JSInline`. -/
def JSInline (dir : Dir) (path compiledName : String) : String × Option String :=
  inline dir path compiledName ".min.js"

/-- Go `tag`: resolve the compiled file's absolute path and format it into
the style or script tag template; result is the HTML string and the
error, if any. -/
def tag (dir : Dir) (path compiledName ext : String) : String × Option String :=
  match findFile dir path compiledName ext true with
  | .error e => ("", some e)
  | .ok file =>
    if hasSuffix ext "css" then (sprintf1 cssTagTemplate file, none)
    else if hasSuffix ext "js" then (sprintf1 jsTagTemplate file, none)
    else ("", some ("No tag template for ext " ++ ext))

/-- Go `CSSTag`. -/
def CSSTag (dir : Dir) (path compiledName : String) : String × Option String :=
  tag dir path compiledName ".min.css"

/-- Go `JSTag`. -/
def JSTag (dir : Dir) (path compiledName : String) : String × Option String :=
  tag dir path compiledName ".min.js"

/-- Go `ImgPath`: the absolute resolved path of a compiled file. -/
def ImgPath (dir : Dir) (path compiledName ext : String) : Except String String :=
  findFile dir path compiledName ext true

/-- The file names present in a directory. -/
def filesOf (dir : Dir) : List String :=
  dir.map Prod.fst


/-! ### Glob-matching lemmas -/

theorem stripPre_append (p r : List Char) : stripPre p (p ++ r) = some r := by
  induction p with
  | nil => rfl
  | cons c cs ih => simp [stripPre, ih]

theorem stripPre_eq_some {p f r : List Char} (h : stripPre p f = some r) :
    f = p ++ r := by
  induction p generalizing f with
  | nil => simpa [stripPre] using h
  | cons c cs ih =>
    cases f with
    | nil => simp [stripPre] at h
    | cons a as =>
      by_cases hca : c = a
      · subst hca
        simp only [stripPre, if_pos rfl] at h
        simpa using ih h
      · simp [stripPre, hca] at h

theorem stripSuf_append (e m : List Char) : stripSuf e (m ++ e) = some m := by
  simp [stripSuf, List.reverse_append, stripPre_append]

theorem stripSuf_eq_some {e r m : List Char} (h : stripSuf e r = some m) :
    r = m ++ e := by
  simp only [stripSuf, Option.map_eq_some'] at h
  obtain ⟨a, ha, rfl⟩ := h
  have := stripPre_eq_some ha
  have : r.reverse.reverse = (e.reverse ++ a).reverse := by rw [this]
  simpa [List.reverse_append] using this

theorem globMatch_of_mid (compiledName ext : String) (mid : List Char)
    (h : ∀ c ∈ mid, c ≠ '/') :
    globMatch compiledName ext
      (String.mk ((filePre compiledName).data ++ (mid ++ ext.data))) = true := by
  simp only [globMatch, stripPre_append]
  rw [stripSuf_append]
  simpa using h

theorem hexDigit_ne_slash (n : Nat) : hexDigit (n % 16) ≠ '/' := by
  have h16 : n % 16 < 16 := Nat.mod_lt _ (by omega)
  have : ∀ m, m < 16 → hexDigit m ≠ '/' := by decide
  exact this _ h16

theorem hexEncode_no_slash (l : List Byte) : ∀ c ∈ (hexEncode l).data, c ≠ '/' := by
  induction l with
  | nil => simp [hexEncode]
  | cons b bs ih =>
    intro c hc
    simp only [hexEncode, List.foldr_cons] at hc
    rcases List.mem_append.mp hc with h | h
    · simp only [hexByte, List.mem_cons, List.mem_singleton] at h
      rcases h with rfl | h
      · exact hexDigit_ne_slash _
      · rcases h with rfl | h
        · exact hexDigit_ne_slash _
        · simp at h
    · exact ih c h

theorem hash_no_slash (buf : List Byte) : ∀ c ∈ (hash buf).data, c ≠ '/' :=
  hexEncode_no_slash _

theorem data_outName (compiledName : String) (buf : List Byte) (ext : String) :
    (outName compiledName buf ext).data =
      (filePre compiledName).data ++ ((hash buf).data ++ ext.data) := by
  simp [outName, String.data_append]

theorem string_eq_of_data {s t : String} (h : s.data = t.data) : s = t := by
  cases s
  cases t
  exact congrArg String.mk h

theorem globMatch_outName (compiledName ext : String) (buf : List Byte) :
    globMatch compiledName ext (outName compiledName buf ext) = true := by
  have h := globMatch_of_mid compiledName ext (hash buf).data (hash_no_slash buf)
  have he : String.mk ((filePre compiledName).data ++ ((hash buf).data ++ ext.data))
      = outName compiledName buf ext :=
    string_eq_of_data (by rw [data_outName])
  rwa [he] at h

/-! ### Directory lemmas -/

theorem mem_filesOf_removeGlob {dir : Dir} {compiledName ext f : String}
    (h : f ∈ filesOf (removeGlob dir compiledName ext)) :
    globMatch compiledName ext f = false := by
  simp only [filesOf, removeGlob, List.mem_map] at h
  obtain ⟨e, he, rfl⟩ := h
  have := (List.mem_filter.mp he).2
  simpa using this

theorem not_mem_removeGlob {dir : Dir} {compiledName ext f : String}
    (h : globMatch compiledName ext f = true) :
    f ∉ filesOf (removeGlob dir compiledName ext) := by
  intro hmem
  have := mem_filesOf_removeGlob hmem
  rw [h] at this
  exact Bool.noConfusion this

theorem writeFile_of_not_mem {dir : Dir} {name : String} {content : List Byte}
    (h : name ∉ filesOf dir) :
    writeFile dir name content = dir ++ [(name, content)] := by
  have hany : dir.any (fun e => e.1 == name) = false := by
    rw [List.any_eq_false]
    intro e he
    simp only [beq_iff_eq]
    intro he1
    apply h
    simp only [filesOf]
    exact List.mem_map.mpr ⟨e, he, he1⟩
  simp [writeFile, hany]

theorem compile_ok (fs : FS) (dir : Dir) (compiledName ext : String)
    (paths : List String) (buf : List Byte)
    (h : combine fs paths = Except.ok buf) :
    compile fs dir compiledName ext paths =
      (removeGlob dir compiledName ext ++ [(outName compiledName buf ext, buf)],
       none) := by
  have hout : outName compiledName buf ext ∉ filesOf (removeGlob dir compiledName ext) :=
    not_mem_removeGlob (globMatch_outName compiledName ext buf)
  simp [compile, h, writeFile_of_not_mem hout]

/-! ### Combine lemmas -/

theorem combine_error (fs : FS) (paths : List String) (p : String)
    (hp : p ∈ paths) (hfail : fs.lookup p = none) :
    ∃ q, q ∈ paths ∧ fs.lookup q = none ∧
      combine fs paths = Except.error (readErrMsg q) := by
  induction paths with
  | nil => cases hp
  | cons p0 rest ih =>
    cases h0 : fs.lookup p0 with
    | none =>
      exact ⟨p0, List.mem_cons_self p0 rest, h0, by simp [combine, readFile, h0]⟩
    | some c =>
      have hpr : p ∈ rest := by
        rcases List.mem_cons.mp hp with rfl | hr
        · rw [h0] at hfail
          cases hfail
        · exact hr
      obtain ⟨q, hq, hqn, hce⟩ := ih hpr
      exact ⟨q, List.mem_cons_of_mem _ hq, hqn,
        by simp [combine, readFile, h0, hce]⟩

theorem combine_readable (fs : FS) (paths : List String)
    (h : ∀ p ∈ paths, (fs.lookup p).isSome = true) :
    combine fs paths =
      Except.ok (paths.foldr
        (fun p acc => (fs.lookup p).getD [] ++ [10, 10] ++ acc) []) := by
  induction paths with
  | nil => rfl
  | cons p0 rest ih =>
    have h0 := h p0 (List.mem_cons_self p0 rest)
    cases hl : fs.lookup p0 with
    | none =>
      rw [hl] at h0
      cases h0
    | some c =>
      have hr := ih (fun p hp => h p (List.mem_cons_of_mem _ hp))
      simp [combine, readFile, hl, hr]

/-! ### Claim C1 -/

/-- Concrete source filesystem for the C1 instances. -/
def c1fs : FS := [("a.css", strBytes "x")]

/-- The output name `compile` produces for `c1fs`'s single source. -/
def c1name : String := outName "app" (strBytes "x\n\n") ".min.css"

/-- An output directory already holding exactly that output file. -/
def c1dir : Dir := [(c1name, strBytes "x\n\n")]

set_option maxRecDepth 10000 in
/-- C1 (counterexample): recompiling unchanged sources recreates the very
same output name, so a file matching `__app-*.min.css` that existed
before the successful call still exists afterwards — it is not gone. -/
theorem c1_counterexample :
    (compile c1fs c1dir "app" ".min.css" ["a.css"]).2 = none ∧
    c1name ∈ filesOf c1dir ∧
    globMatch "app" ".min.css" c1name = true ∧
    c1name ∈ filesOf (compile c1fs c1dir "app" ".min.css" ["a.css"]).1 := by
  decide

/-- C1 (amended): after every successful `compile` for `(dir, name, ext)`,
the files of the output directory matching `__<name>-*<ext>` are exactly
the newly written output file, and every previously matching file other
than that output file is gone. -/
theorem c1_compile_invariant (fs : FS) (dir : Dir) (compiledName ext : String)
    (paths : List String) (dir' : Dir) (buf : List Byte)
    (hok : combine fs paths = Except.ok buf)
    (hc : compile fs dir compiledName ext paths = (dir', none)) :
    (filesOf dir').filter (globMatch compiledName ext) =
      [outName compiledName buf ext] ∧
    ((filesOf dir).filter (globMatch compiledName ext)).all
      (fun f => f == outName compiledName buf ext ||
        !((filesOf dir').contains f)) = true := by
  have hc2 := compile_ok fs dir compiledName ext paths buf hok
  rw [hc] at hc2
  have hdir' : dir' =
      removeGlob dir compiledName ext ++ [(outName compiledName buf ext, buf)] :=
    congrArg Prod.fst hc2
  have hfiles : filesOf dir' =
      filesOf (removeGlob dir compiledName ext) ++ [outName compiledName buf ext] := by
    rw [hdir']
    simp [filesOf]
  constructor
  · rw [hfiles, List.filter_append]
    have h1 : (filesOf (removeGlob dir compiledName ext)).filter
        (globMatch compiledName ext) = [] := by
      rw [List.filter_eq_nil_iff]
      intro a ha
      rw [mem_filesOf_removeGlob ha]
      exact Bool.false_ne_true
    rw [h1]
    simp [globMatch_outName]
  · rw [List.all_eq_true]
    intro f hfmem
    have hg : globMatch compiledName ext f = true := (List.mem_filter.mp hfmem).2
    by_cases heq : f = outName compiledName buf ext
    · simp [heq]
    · have hnot : f ∉ filesOf dir' := by
        rw [hfiles]
        intro hmem
        rcases List.mem_append.mp hmem with hm | hm
        · exact absurd hm (not_mem_removeGlob hg)
        · exact heq (List.mem_singleton.mp hm)
      simp [heq, hnot]

set_option maxRecDepth 10000 in
/-- C1 witness: the amended invariant evaluated on the concrete instance. -/
theorem c1_compile_invariant_witness :
    (filesOf (compile c1fs c1dir "app" ".min.css" ["a.css"]).1).filter
        (globMatch "app" ".min.css") = [outName "app" (strBytes "x\n\n") ".min.css"] ∧
    ((filesOf c1dir).filter (globMatch "app" ".min.css")).all
      (fun f => f == outName "app" (strBytes "x\n\n") ".min.css" ||
        !((filesOf (compile c1fs c1dir "app" ".min.css" ["a.css"]).1).contains f)) =
      true :=
  c1_compile_invariant c1fs c1dir "app" ".min.css" ["a.css"]
    (compile c1fs c1dir "app" ".min.css" ["a.css"]).1 (strBytes "x\n\n")
    (by rfl) (by rfl)

/-! ### Claim C2 -/

/-- The two example sources of the spec. -/
def c2fs : FS :=
  [("a.css", strBytes "body\x7bcolor:red\x7d"),
   ("b.css", strBytes "p\x7bcolor:blue\x7d")]

/-- The expected combined content: each source followed by `"\n\n"`. -/
def c2content : List Byte :=
  strBytes "body\x7bcolor:red\x7d\n\np\x7bcolor:blue\x7d\n\n"

set_option maxRecDepth 10000 in
/-- C2: compiling logical name `app`, extension `.min.css`, from the two
example sources produces exactly one output file, whose content appends
`"\n\n"` to each source and whose name is `__app-` ++ the lowercase-hex
MD5 of that content ++ `.min.css` (the digest pinned to its externally
checked value). -/
theorem c2_compile_example :
    compile c2fs [] "app" ".min.css" ["a.css", "b.css"] =
      ([("__app-" ++ hash c2content ++ ".min.css", c2content)], none) ∧
    hash c2content = "09530647c625e660b8ede522ecf74902" := by
  decide

/-! ### Claim C3 -/

theorem combine_first_error (fs : FS) (pre post : List String) (p : String)
    (hfail : fs.lookup p = none)
    (hpre : ∀ q ∈ pre, (fs.lookup q).isSome = true) :
    combine fs (pre ++ p :: post) = Except.error (readErrMsg p) := by
  induction pre with
  | nil => simp [combine, readFile, hfail]
  | cons q0 rest ih =>
    have h0 := hpre q0 (List.mem_cons_self q0 rest)
    cases hl : fs.lookup q0 with
    | none =>
      rw [hl] at h0
      cases h0
    | some c =>
      have hr := ih (fun q hq => hpre q (List.mem_cons_of_mem _ hq))
      simp [combine, readFile, hl, hr]

/-- C3: when the first unreadable source path is `p` (all paths before it
read fine), `compile` returns `p`'s read error and the output directory
is completely unchanged: no stale file removed, no new file written. -/
theorem c3_read_error_leaves_dir (fs : FS) (dir : Dir) (compiledName ext : String)
    (pre post : List String) (p : String)
    (hfail : fs.lookup p = none)
    (hpre : ∀ q ∈ pre, (fs.lookup q).isSome = true) :
    compile fs dir compiledName ext (pre ++ p :: post) =
      (dir, some (readErrMsg p)) := by
  simp [compile, combine_first_error fs pre post p hfail hpre]

/-- Concrete source filesystem for the C3 witness: `b` is unreadable. -/
def c3fs : FS := [("a", [1]), ("c", [2])]

/-- C3 witness: the read-error theorem evaluated on a concrete instance. -/
theorem c3_read_error_leaves_dir_witness :
    compile c3fs [("__n-x.css", [7])] "n" ".css" (["a"] ++ "b" :: ["c"]) =
      ([("__n-x.css", [7])], some (readErrMsg "b")) :=
  c3_read_error_leaves_dir c3fs [("__n-x.css", [7])] "n" ".css" ["a"] ["c"] "b"
    (by rfl) (by decide)

/-! ### Claim C4 -/

/-- C4: `findFile` errors with the no-file message on zero glob matches,
errors with the more-than-one message on two or more matches, and on
exactly one match returns its path, rooted at `/` exactly when the
absolute flag is set. -/
theorem c4_findFile_cases (dir : Dir) (path compiledName ext : String) (abs : Bool) :
    findFile dir path compiledName ext abs =
      (match findMatches dir compiledName ext with
       | [] => Except.error (noFilesMsg path compiledName)
       | [e] => Except.ok
           (if abs then joinPath "/" (joinPath path e.1) else joinPath path e.1)
       | _ => Except.error (moreThanOneMsg path compiledName)) := by
  rcases hm : findMatches dir compiledName ext with _ | ⟨e1, _ | ⟨e2, es⟩⟩
  · simp [findFile, hm]
  · simp [findFile, hm]
    cases abs <;> rfl
  · simp [findFile, hm]

/-! ### Claim C5 -/

/-- Concrete source for the C5 instances: a one-byte image file. -/
def c5fs : FS := [("img.png", [137])]

set_option maxRecDepth 10000 in
/-- C5 (counterexample): `ImgCompile` does not write the source bytes
unmodified — the single written file's content is the source bytes
followed by the two-newline separator. -/
theorem c5_counterexample :
    c5fs.lookup "img.png" = some [137] ∧
    (ImgCompile c5fs [] "icon" ".png" "img.png").2 = none ∧
    (ImgCompile c5fs [] "icon" ".png" "img.png").1 =
      [(outName "icon" [137, 10, 10] ".png", [137, 10, 10])] ∧
    ([137, 10, 10] : List Byte) ≠ [137] := by
  decide

/-- C5 (amended): `ImgCompile` compiles exactly one source file with no
concatenation of several sources, but the content of the output file it
writes is the source bytes followed by two newline bytes, not the source
bytes unmodified. -/
theorem c5_imgcompile_content (fs : FS) (dir : Dir) (compiledName ext p : String)
    (c : List Byte) (h : fs.lookup p = some c) :
    ImgCompile fs dir compiledName ext p =
      (removeGlob dir compiledName ext ++
        [(outName compiledName (c ++ [10, 10]) ext, c ++ [10, 10])],
       none) := by
  have hc : combine fs [p] = Except.ok (c ++ [10, 10]) := by
    simp [combine, readFile, h]
  exact compile_ok fs dir compiledName ext [p] (c ++ [10, 10]) hc

set_option maxRecDepth 10000 in
/-- C5 witness: the amended content equation on the concrete instance. -/
theorem c5_imgcompile_content_witness :
    ImgCompile c5fs [] "icon" ".png" "img.png" =
      (removeGlob [] "icon" ".png" ++
        [(outName "icon" ([137] ++ [10, 10]) ".png", [137] ++ [10, 10])],
       none) :=
  c5_imgcompile_content c5fs [] "icon" ".png" "img.png" [137] (by rfl)

/-! ### Claim C6 -/

/-- Concrete sources for the C6 instances. -/
def c6fs : FS := [("f1", strBytes "a"), ("f2", strBytes "b")]

/-- C6 (counterexample): combining two sources puts the two-newline
separator after the last file as well — the buffer is `"a\n\nb\n\n"`,
not `"a\n\nb"`. -/
theorem c6_counterexample :
    combine c6fs ["f1", "f2"] = Except.ok (strBytes "a\n\nb\n\n") ∧
    strBytes "a\n\nb\n\n" ≠ strBytes "a\n\nb" := by
  constructor
  · rfl
  · decide

/-- C6 (amended): for readable sources the buffer `compile` hashes and
writes is the in-order concatenation of each source's content followed by
the two-newline separator — after every file, including the last. -/
theorem c6_separator_after_each (fs : FS) (dir : Dir) (compiledName ext : String)
    (paths : List String)
    (h : ∀ p ∈ paths, (fs.lookup p).isSome = true) :
    compile fs dir compiledName ext paths =
      (removeGlob dir compiledName ext ++
        [(outName compiledName
            (paths.foldr (fun p acc => (fs.lookup p).getD [] ++ [10, 10] ++ acc) [])
            ext,
          paths.foldr (fun p acc => (fs.lookup p).getD [] ++ [10, 10] ++ acc) [])],
       none) :=
  compile_ok fs dir compiledName ext paths _ (combine_readable fs paths h)

set_option maxRecDepth 10000 in
/-- C6 witness: the separator equation on the concrete two-file instance. -/
theorem c6_separator_after_each_witness :
    compile c6fs [] "app" ".min.css" ["f1", "f2"] =
      (removeGlob [] "app" ".min.css" ++
        [(outName "app"
            ((["f1", "f2"]).foldr
              (fun p acc => (c6fs.lookup p).getD [] ++ [10, 10] ++ acc) [])
            ".min.css",
          (["f1", "f2"]).foldr
            (fun p acc => (c6fs.lookup p).getD [] ++ [10, 10] ++ acc) [])],
       none) :=
  c6_separator_after_each c6fs [] "app" ".min.css" ["f1", "f2"] (by decide)

/-! ### Claims C7 and C8 -/

theorem findFile_singleton (dir : Dir) (path compiledName ext : String)
    (e : String × List Byte) (h : findMatches dir compiledName ext = [e]) :
    findFile dir path compiledName ext true =
      Except.ok (joinPath "/" (joinPath path e.1)) := by
  simp [findFile, h]

theorem sprintf_cssTag (f : String) :
    sprintf1 cssTagTemplate f =
      "<link href=\"" ++ f ++ "\" rel=\"stylesheet\" type=\"text/css\" />" := by
  apply string_eq_of_data
  rfl

theorem sprintf_jsTag (f : String) :
    sprintf1 jsTagTemplate f =
      "<script src=\"" ++ f ++ "\" type=\"text/javascript\" ></script>" := by
  apply string_eq_of_data
  rfl

/-- C7 (counterexample): with an empty directory and extension `.txt`,
`tag` and `inline` fail with the file-resolution error, not the
no-template error — which error is produced does depend on the
directory's contents. -/
theorem c7_counterexample :
    tag [] "static" "app" ".txt" = ("", some (noFilesMsg "static" "app")) ∧
    inline [] "static" "app" ".txt" = ("", some (noFilesMsg "static" "app")) ∧
    noFilesMsg "static" "app" ≠ "No tag template for ext " ++ ".txt" ∧
    noFilesMsg "static" "app" ≠ "No inline template for ext " ++ ".txt" := by
  exact ⟨rfl, rfl, by decide, by decide⟩

/-- C7 (amended): for an extension ending in neither `css` nor `js`, when
the glob resolves to exactly one compiled file, both `tag` and `inline`
fail with the descriptive no-template error for that extension, never a
blank or default template (when resolution fails, the resolution error is
surfaced instead). -/
theorem c7_no_template (dir : Dir) (path compiledName ext : String)
    (e : String × List Byte)
    (hone : findMatches dir compiledName ext = [e])
    (hcss : hasSuffix ext "css" = false) (hjs : hasSuffix ext "js" = false) :
    tag dir path compiledName ext =
      ("", some ("No tag template for ext " ++ ext)) ∧
    inline dir path compiledName ext =
      ("", some ("No inline template for ext " ++ ext)) := by
  constructor
  · simp [tag, findFile_singleton dir path compiledName ext e hone, hcss, hjs]
  · simp [inline, hone, hcss, hjs]

/-- Concrete directory for the C7 witness. -/
def c7dir : Dir := [("__app-x.txt", [1])]

/-- C7 witness: the no-template errors on a concrete `.txt` instance. -/
theorem c7_no_template_witness :
    tag c7dir "static" "app" ".txt" =
      ("", some ("No tag template for ext " ++ ".txt")) ∧
    inline c7dir "static" "app" ".txt" =
      ("", some ("No inline template for ext " ++ ".txt")) :=
  c7_no_template c7dir "static" "app" ".txt" ("__app-x.txt", [1])
    (by decide) (by rfl) (by rfl)

/-- C8: with exactly one compiled `.min.css` (resp. `.min.js`) file for
the logical name, `CSSTag` (resp. `JSTag`) returns exactly the fixed
template string with the absolute resolved path substituted verbatim. -/
theorem c8_tag_formats (dir : Dir) (path n1 n2 : String)
    (e1 e2 : String × List Byte)
    (h1 : findMatches dir n1 ".min.css" = [e1])
    (h2 : findMatches dir n2 ".min.js" = [e2]) :
    CSSTag dir path n1 =
      ("<link href=\"" ++ joinPath "/" (joinPath path e1.1) ++
        "\" rel=\"stylesheet\" type=\"text/css\" />", none) ∧
    JSTag dir path n2 =
      ("<script src=\"" ++ joinPath "/" (joinPath path e2.1) ++
        "\" type=\"text/javascript\" ></script>", none) := by
  have hcss : hasSuffix ".min.css" "css" = true := rfl
  have hjs : hasSuffix ".min.js" "css" = false := rfl
  have hjs2 : hasSuffix ".min.js" "js" = true := rfl
  constructor
  · simp [CSSTag, tag, findFile_singleton dir path n1 ".min.css" e1 h1, hcss,
      sprintf_cssTag]
  · simp [JSTag, tag, findFile_singleton dir path n2 ".min.js" e2 h2, hjs, hjs2,
      sprintf_jsTag]

/-- Concrete directory for the C8 witness. -/
def c8dir : Dir :=
  [("__app-deadbeef.min.css", []), ("__app-deadbeef.min.js", [])]

/-- C8 witness: the exact tag strings on a concrete directory. -/
theorem c8_tag_formats_witness :
    CSSTag c8dir "static" "app" =
      ("<link href=\"" ++ joinPath "/" (joinPath "static" "__app-deadbeef.min.css") ++
        "\" rel=\"stylesheet\" type=\"text/css\" />", none) ∧
    JSTag c8dir "static" "app" =
      ("<script src=\"" ++ joinPath "/" (joinPath "static" "__app-deadbeef.min.js") ++
        "\" type=\"text/javascript\" ></script>", none) :=
  c8_tag_formats c8dir "static" "app" "app"
    ("__app-deadbeef.min.css", []) ("__app-deadbeef.min.js", [])
    (by decide) (by decide)

/-! ### Claim C9 -/

/-- Concrete sources for the C9 instances. -/
def c9fs : FS := [("a", strBytes "u"), ("b", strBytes "v")]

/-- The directory after compiling logical name `app`. -/
def c9dir1 : Dir := (compile c9fs [] "app" ".min.css" ["a"]).1

/-- The directory after then compiling logical name `app-admin`. -/
def c9dir2 : Dir := (compile c9fs c9dir1 "app-admin" ".min.css" ["b"]).1

set_option maxRecDepth 100000 in
/-- C9: logical names are not isolated: any output file compiled for
`n1 ++ "-" ++ s` also matches `n1`'s glob (for any separator-free `s`);
concretely, compiling `app` and then `app-admin` into one directory both
succeed, after which `findFile` for `app` fails with the more-than-one
error, and recompiling `app` deletes `app-admin`'s output file. -/
theorem c9_name_aliasing (n1 s ext : String) (buf : List Byte)
    (hs : ∀ c ∈ s.data, c ≠ '/') :
    globMatch n1 ext (outName (n1 ++ "-" ++ s) buf ext) = true ∧
    (compile c9fs [] "app" ".min.css" ["a"]).2 = none ∧
    (compile c9fs c9dir1 "app-admin" ".min.css" ["b"]).2 = none ∧
    findFile c9dir2 "static" "app" ".min.css" false =
      Except.error (moreThanOneMsg "static" "app") ∧
    outName "app-admin" (strBytes "v\n\n") ".min.css" ∈ filesOf c9dir2 ∧
    outName "app-admin" (strBytes "v\n\n") ".min.css" ∉
      filesOf (compile c9fs c9dir2 "app" ".min.css" ["a"]).1 := by
  refine ⟨?_, by rfl, by rfl, by rfl, by decide, by decide⟩
  have hmid : ∀ c ∈ s.data ++ '-' :: (hash buf).data, c ≠ '/' := by
    intro c hc
    rcases List.mem_append.mp hc with h | h
    · exact hs c h
    · rcases List.mem_cons.mp h with rfl | h
      · decide
      · exact hash_no_slash buf c h
  have key := globMatch_of_mid n1 ext (s.data ++ '-' :: (hash buf).data) hmid
  have hdash : ("-" : String).data = ['-'] := rfl
  have he : String.mk
      ((filePre n1).data ++ ((s.data ++ '-' :: (hash buf).data) ++ ext.data))
      = outName (n1 ++ "-" ++ s) buf ext := by
    apply string_eq_of_data
    simp [data_outName, filePre, String.data_append, hdash, List.append_assoc]
  rwa [he] at key

set_option maxRecDepth 100000 in
/-- C9 witness: the aliasing facts at the concrete instance. -/
theorem c9_name_aliasing_witness :
    globMatch "app" ".min.css" (outName ("app" ++ "-" ++ "admin") [] ".min.css") = true ∧
    (compile c9fs [] "app" ".min.css" ["a"]).2 = none ∧
    (compile c9fs c9dir1 "app-admin" ".min.css" ["b"]).2 = none ∧
    findFile c9dir2 "static" "app" ".min.css" false =
      Except.error (moreThanOneMsg "static" "app") ∧
    outName "app-admin" (strBytes "v\n\n") ".min.css" ∈ filesOf c9dir2 ∧
    outName "app-admin" (strBytes "v\n\n") ".min.css" ∉
      filesOf (compile c9fs c9dir2 "app" ".min.css" ["a"]).1 :=
  c9_name_aliasing "app" "admin" ".min.css" [] (by decide)

/-! ### Claim C10 -/

/-- C10: for every render request, `tag` and `inline` either succeed or
return the empty string as the HTML value alongside the error — every
error path yields exactly the empty HTML string. -/
theorem c10_error_html_empty (dir : Dir) (path compiledName ext : String) :
    ((tag dir path compiledName ext).2 = none ∨
      (tag dir path compiledName ext).1 = "") ∧
    ((inline dir path compiledName ext).2 = none ∨
      (inline dir path compiledName ext).1 = "") := by
  constructor
  · rcases hf : findFile dir path compiledName ext true with e | file
    · right
      simp [tag, hf]
    · by_cases hc : hasSuffix ext "css" = true
      · left
        simp [tag, hf, hc]
      · by_cases hj : hasSuffix ext "js" = true
        · left
          simp [tag, hf, hc, hj]
        · right
          simp [tag, hf, hc, hj]
  · rcases hm : findMatches dir compiledName ext with _ | ⟨e, _ | ⟨e2, es⟩⟩
    · right
      simp [inline, hm]
    · by_cases hc : hasSuffix ext "css" = true
      · left
        simp [inline, hm, hc]
      · by_cases hj : hasSuffix ext "js" = true
        · left
          simp [inline, hm, hc, hj]
        · right
          simp [inline, hm, hc, hj]
    · right
      simp [inline, hm]

end Assets
